import Mathlib

/-!
Verification of the SECA data converter core pipeline.

The definitions below shallowly embed `src/seca_data_converter.py`:
the positional measurement parser (`parse_measurements_from_seca_ocr`),
the numeric helpers (`normalize_number`), the data-quality evaluator
(`evaluate_data_quality`), the row assembler (`extract_pdf_data`), the
OCR crop-box scaling (`get_scaled_ocr_box`) and the batch orchestrator
(`main`).  Python floats are idealized as exact rationals; the single
transcendental operation (`math.atan(x) * 180 / math.pi` in quality
rule 9) is abstracted as an explicit function parameter `atanDeg`,
since it has no exact rational embedding.  I/O (pdfplumber, tesseract,
tkinter, pandas) is external: documents are represented by the text
the text sources hand to the core (`textLayer` and `ocrText`), and the
regex-based patient-metadata parser, whose output values none of the
verified claims depend on, is abstracted as a function parameter
`metaParse` returning an association list of header fields.
-/

namespace SECA

/-! ### Numeral tokenization (source lines 234-235)

The positional parser extracts numbers with `re.findall(r"\d+(?:\.\d+)?", ocr_text)`.
`takeDigits` splits a maximal run of ASCII digits off the front; `findNumbersAux`
simulates the scan of `re.findall` for this pattern: skip to the next digit, take
the maximal digit run, optionally take a single dot followed by a further maximal
digit run, emit the token, continue after it.  The fuel argument (initialized to
the text length, which bounds the number of scanning steps) makes the recursion
structural. -/

def takeDigits : List Char → List Char × List Char
  | [] => ([], [])
  | c :: cs =>
    if c.isDigit then
      let p := takeDigits cs
      (c :: p.1, p.2)
    else ([], c :: cs)

def findNumbersAux : Nat → List Char → List (List Char)
  | 0, _ => []
  | _, [] => []
  | fuel + 1, c :: cs =>
    if c.isDigit then
      let intp := takeDigits cs
      match intp.2 with
      | '.' :: c2 :: r2 =>
        if c2.isDigit then
          let frac := takeDigits r2
          (c :: intp.1 ++ '.' :: c2 :: frac.1) :: findNumbersAux fuel frac.2
        else
          (c :: intp.1) :: findNumbersAux fuel intp.2
      | _ => (c :: intp.1) :: findNumbersAux fuel intp.2
    else findNumbersAux fuel cs

def findNumbers (l : List Char) : List (List Char) :=
  findNumbersAux l.length l

/-- Numeric value of a list of ASCII digits (most significant first). -/
def natOfDigits (ds : List Char) : Nat :=
  ds.foldl (fun n c => 10 * n + (c.toNat - 48)) 0

/-- Exact value of a token of shape `digits` or `digits.digits`
(the idealization of Python `float(token)` on the tokens the parser produces). -/
def ratOfToken (t : List Char) : ℚ :=
  let intPart := t.takeWhile (fun c => c != '.')
  let rest := t.dropWhile (fun c => c != '.')
  match rest with
  | [] => (natOfDigits intPart : ℚ)
  | _ :: frac => (natOfDigits intPart : ℚ) + (natOfDigits frac : ℚ) / (10 : ℚ) ^ frac.length

/-- Embedding of `normalize_number` (source lines 130-132): replace every
comma with a period, then parse as a float (here: an exact decimal,
with an optional leading minus sign). -/
def normalize_number (token : String) : ℚ :=
  let t := token.data.map (fun c => if c = ',' then '.' else c)
  match t with
  | '-' :: rest => -(ratOfToken rest)
  | _ => ratOfToken t

/-! ### Measurement schema (source lines 69-128) -/

def PATIENT_METADATA_FIELDS : List String :=
  ["Patient ID", "Sex", "Age", "Collection Date", "Collection Time"]

def MEASUREMENT_FIELD_NAMES : List String :=
  ["Fat Mass (kg)",
   "Fat Mass (%)",
   "Fat Mass Index (kg/m^2)",
   "Fat-Free Mass (kg)",
   "Fat-Free Mass (%)",
   "Fat-Free Mass Index (kg/m^2)",
   "Skeletal Muscle Mass (kg)",
   "Right Arm (kg)",
   "Left Arm (kg)",
   "Right Leg (kg)",
   "Left Leg (kg)",
   "Torso (kg)",
   "Visceral Adipose Tissue",
   "SECA BMI (kg/m^2)",
   "Height (m)",
   "Weight (kg)",
   "Total Body Water (L)",
   "Total Body Water (%)",
   "Extracellular Water (L)",
   "Extracellular Water (%)",
   "ECW/TBW (%)",
   "Resting Energy Expenditure (kcal/day)",
   "Energy Consumption (kcal/day)",
   "Phase Angle (deg)",
   "Phase Angle Percentile",
   "Resistance (Ohm)",
   "Reactance (Ohm)",
   "Physical Activity Level"]

def CALCULATED_FIELD_NAMES : List String :=
  ["Body Mass Index (kg/m^2)"]

/-- Embedding of `output_field_order()` (source lines 113-125): the measurement
fields in schema order with the calculated field spliced in right after
"SECA BMI (kg/m^2)", preceded by the bookkeeping and metadata columns. -/
def output_field_order : List String :=
  let order := (MEASUREMENT_FIELD_NAMES.map
    (fun name =>
      name :: (if name = "SECA BMI (kg/m^2)" then CALCULATED_FIELD_NAMES else []))).flatten
  ["Source File"] ++ PATIENT_METADATA_FIELDS ++ ["Data Quality", "Data Quality Fails"] ++ order

def OUTPUT_FIELD_ORDER : List String := output_field_order

/-! ### Positional measurement parser (source lines 227-244) -/

/-- The dict-building loop of `parse_measurements_from_seca_ocr`: field `name`
at schema position `i` receives `values[i]` when `i < len(values)` and stays
`None` otherwise (`values[i]?` is exactly that). -/
def assignPositional (values : List ℚ) : List String → Nat → List (String × Option ℚ)
  | [], _ => []
  | name :: rest, i => (name, values[i]?) :: assignPositional values rest (i + 1)

/-- Embedding of `parse_measurements_from_seca_ocr` (source lines 227-244):
extract every numeral token of the OCR text in reading order and assign the
values positionally to the fixed measurement schema. -/
def parse_measurements_from_seca_ocr (ocr_text : String) : List (String × Option ℚ) :=
  let values := (findNumbers ocr_text.data).map ratOfToken
  assignPositional values MEASUREMENT_FIELD_NAMES 0

/-! ### Row values

A cell of an output row is Python `None`, a float (idealized as a rational)
or a string.  A row is an association list in insertion order, which models a
Python dict (`lookupVal` returns the value at the first matching key;
`setKey` models `row[k] = v`: replace in place when the key exists, append
otherwise; `updateRow` models `row.update(other)`). -/

inductive Value where
  | null : Value
  | num (q : ℚ) : Value
  | str (s : String) : Value
deriving DecidableEq

abbrev Row := List (String × Value)

def lookupVal (k : String) : Row → Option Value
  | [] => none
  | p :: rest => if p.1 = k then some p.2 else lookupVal k rest

def setKey : Row → String → Value → Row
  | [], k, v => [(k, v)]
  | p :: rest, k, v =>
    if p.1 = k then (k, v) :: rest
    else p :: setKey rest k v

def updateRow (row : Row) (upd : Row) : Row :=
  upd.foldl (fun r p => setKey r p.1 p.2) row

/-- The numeric view of a row used by the quality evaluator: `values.get(field)`
for a field that holds a float.  (In the source flow, every field a quality
rule reads holds either `None` or a float.) -/
def lookupNum (row : Row) (k : String) : Option ℚ :=
  match lookupVal k row with
  | some (Value.num q) => some q
  | _ => none

/-! ### Data quality evaluator (source lines 246-382)

Each `ruleN_fails` mirrors one numbered block of `evaluate_data_quality`:
it is `true` exactly when that block appends its identifier to `failures`.
Where the source reads `(x or 0)` on a value guaranteed present, this equals
the value itself (also for `0.0`), embedded as `getD 0`; `(x or 1)` is only
reached under a guard that excludes `0` and `None`, where it equals the
value.  `atanDeg` stands for `math.atan(x) * 180 / math.pi`. -/

def numbers_present (values : String → Option ℚ) (fields : List String) : Bool :=
  fields.all (fun f => (values f).isSome)

def almost_equal (calculated expected tolerance : ℚ) : Bool :=
  |calculated - expected| ≤ tolerance

def rule1_fails (values : String → Option ℚ) : Bool :=
  if numbers_present values ["Fat Mass (kg)", "Fat-Free Mass (kg)", "Weight (kg)"] then
    let fm := (values "Fat Mass (kg)").getD 0
    let ffm := (values "Fat-Free Mass (kg)").getD 0
    let weight := (values "Weight (kg)").getD 0
    !almost_equal (fm + ffm) weight 0.01
  else true

def rule2_fails (values : String → Option ℚ) : Bool :=
  if numbers_present values ["Fat Mass (%)", "Fat-Free Mass (%)"] then
    let fm_pct := (values "Fat Mass (%)").getD 0
    let ffm_pct := (values "Fat-Free Mass (%)").getD 0
    !almost_equal (fm_pct + ffm_pct) 100 0.01
  else true

def rule3_fails (values : String → Option ℚ) : Bool :=
  if numbers_present values
      ["Fat Mass Index (kg/m^2)", "Fat-Free Mass Index (kg/m^2)", "SECA BMI (kg/m^2)"] then
    let fmi := (values "Fat Mass Index (kg/m^2)").getD 0
    let ffmi := (values "Fat-Free Mass Index (kg/m^2)").getD 0
    let bmi := (values "SECA BMI (kg/m^2)").getD 0
    !almost_equal (fmi + ffmi) bmi 0.2
  else true

def rule4_fails (values : String → Option ℚ) : Bool :=
  if numbers_present values
      ["Right Arm (kg)", "Left Arm (kg)", "Right Leg (kg)", "Left Leg (kg)",
       "Torso (kg)", "Skeletal Muscle Mass (kg)"] then
    let sum_limbs :=
      (["Right Arm (kg)", "Left Arm (kg)", "Right Leg (kg)", "Left Leg (kg)",
        "Torso (kg)"].map (fun f => (values f).getD 0)).sum
    !almost_equal sum_limbs ((values "Skeletal Muscle Mass (kg)").getD 0) 0.3
  else true

def rule5_fails (values : String → Option ℚ) : Bool :=
  if numbers_present values ["Weight (kg)", "Height (m)", "SECA BMI (kg/m^2)"] then
    let weight := (values "Weight (kg)").getD 0
    let bmi := (values "SECA BMI (kg/m^2)").getD 0
    match values "Height (m)" with
    | none => true
    | some height =>
      if height = 0 then true
      else !almost_equal (weight / height ^ 2) bmi 0.4
  else true

def rule6_fails (values : String → Option ℚ) : Bool :=
  if numbers_present values
      ["Extracellular Water (L)", "Total Body Water (L)", "ECW/TBW (%)"] then
    let ecw := (values "Extracellular Water (L)").getD 0
    let ratio := (values "ECW/TBW (%)").getD 0
    match values "Total Body Water (L)" with
    | none => true
    | some tbw =>
      if tbw = 0 then true
      else !almost_equal (ecw / tbw * 100) ratio 0.2
  else true

def rule7_fails (values : String → Option ℚ) : Bool :=
  if numbers_present values
      ["Extracellular Water (%)", "Total Body Water (%)", "ECW/TBW (%)"] then
    let ecw_pct := (values "Extracellular Water (%)").getD 0
    let ratio := (values "ECW/TBW (%)").getD 0
    match values "Total Body Water (%)" with
    | none => true
    | some tbw_pct =>
      if tbw_pct = 0 then true
      else !almost_equal (ecw_pct / tbw_pct * 100) ratio 0.2
  else true

def rule8_fails (values : String → Option ℚ) : Bool :=
  if numbers_present values
      ["Resting Energy Expenditure (kcal/day)", "Physical Activity Level",
       "Energy Consumption (kcal/day)"] then
    let ree := (values "Resting Energy Expenditure (kcal/day)").getD 0
    let pal := (values "Physical Activity Level").getD 0
    let energy := (values "Energy Consumption (kcal/day)").getD 0
    !almost_equal (ree * pal) energy 0.01
  else true

def rule9_fails (atanDeg : ℚ → ℚ) (values : String → Option ℚ) : Bool :=
  if numbers_present values ["Reactance (Ohm)", "Resistance (Ohm)", "Phase Angle (deg)"] then
    let reactance := (values "Reactance (Ohm)").getD 0
    let phase_angle := (values "Phase Angle (deg)").getD 0
    match values "Resistance (Ohm)" with
    | none => true
    | some resistance =>
      if resistance = 0 then true
      else !almost_equal (atanDeg (reactance / resistance)) phase_angle 0.1
  else true

def rule10_fails (values : String → Option ℚ) : Bool :=
  match values "Phase Angle Percentile" with
  | none => true
  | some percentile => decide (percentile < 0) || decide (percentile > 100)

/-- The ten rule blocks of `evaluate_data_quality` in evaluation order, each
paired with the identifier it appends on failure. -/
def rule_table (atanDeg : ℚ → ℚ) (values : String → Option ℚ) : List (Bool × String) :=
  [(rule1_fails values, "1"),
   (rule2_fails values, "2"),
   (rule3_fails values, "3"),
   (rule4_fails values, "4"),
   (rule5_fails values, "5"),
   (rule6_fails values, "6"),
   (rule7_fails values, "7"),
   (rule8_fails values, "8"),
   (rule9_fails atanDeg values, "9"),
   (rule10_fails values, "10")]

/-- Sequential appends of the identifiers of the failing entries, in order. -/
def mkFailures : List (Bool × String) → List String
  | [] => []
  | p :: rest => (if p.1 then [p.2] else []) ++ mkFailures rest

/-- The `failures` list that `evaluate_data_quality` accumulates. -/
def quality_failures (atanDeg : ℚ → ℚ) (values : String → Option ℚ) : List String :=
  mkFailures (rule_table atanDeg values)

def RULE_IDS : List String := ["1", "2", "3", "4", "5", "6", "7", "8", "9", "10"]

/-- The fields each rule reads through `numbers_present` (rule 10 reads its
single field directly); if any of them is `None` the rule fails. -/
def RULES_REQUIRED : List (String × List String) :=
  [("1", ["Fat Mass (kg)", "Fat-Free Mass (kg)", "Weight (kg)"]),
   ("2", ["Fat Mass (%)", "Fat-Free Mass (%)"]),
   ("3", ["Fat Mass Index (kg/m^2)", "Fat-Free Mass Index (kg/m^2)", "SECA BMI (kg/m^2)"]),
   ("4", ["Right Arm (kg)", "Left Arm (kg)", "Right Leg (kg)", "Left Leg (kg)",
          "Torso (kg)", "Skeletal Muscle Mass (kg)"]),
   ("5", ["Weight (kg)", "Height (m)", "SECA BMI (kg/m^2)"]),
   ("6", ["Extracellular Water (L)", "Total Body Water (L)", "ECW/TBW (%)"]),
   ("7", ["Extracellular Water (%)", "Total Body Water (%)", "ECW/TBW (%)"]),
   ("8", ["Resting Energy Expenditure (kcal/day)", "Physical Activity Level",
          "Energy Consumption (kcal/day)"]),
   ("9", ["Reactance (Ohm)", "Resistance (Ohm)", "Phase Angle (deg)"]),
   ("10", ["Phase Angle Percentile"])]

/-- Embedding of `evaluate_data_quality` (source lines 246-382): run the ten
rules in order, then return the two-entry verdict mapping.  The function is
pure: it reads `values` and builds a fresh mapping. -/
def evaluate_data_quality (atanDeg : ℚ → ℚ) (values : String → Option ℚ) : Row :=
  let failures := quality_failures atanDeg values
  [("Data Quality", Value.str (if failures = [] then "Pass" else "Fail")),
   ("Data Quality Fails", Value.str (String.intercalate "," failures))]

/-! ### Row assembler (source lines 385-424)

A document is represented by what the text sources hand to the core: the
file name, the embedded text layer and the OCR text of the cropped region
(the pdfplumber/tesseract calls themselves are external I/O). -/

structure PdfInput where
  fileName : String
  textLayer : String
  ocrText : String

/-- Python substring containment (`needle in hay`) on character lists. -/
def listPrefixOf : List Char → List Char → Bool
  | [], _ => true
  | n :: ns, hay =>
    match hay with
    | [] => false
    | h :: hs => decide (n = h) && listPrefixOf ns hs

def containsSubAux (needle : List Char) : List Char → Bool
  | [] => listPrefixOf needle []
  | c :: cs => listPrefixOf needle (c :: cs) || containsSubAux needle cs

def containsSub (needle hay : String) : Bool :=
  containsSubAux needle.data hay.data

/-- ASCII case folding, the fragment of Python `str.lower()` relevant to the
keyword check (the two keywords are plain ASCII). -/
def lowerChar (c : Char) : Char :=
  if 'A' ≤ c ∧ c ≤ 'Z' then Char.ofNat (c.toNat + 32) else c

/-- Embedding of `collapse_whitespace` (source lines 135-138):
`" ".join(text.split())`. -/
def collapse_whitespace (text : String) : String :=
  String.intercalate " " ((text.split (fun c => c.isWhitespace)).filter (fun s => s ≠ ""))

/-- The keyword check of `extract_pdf_data` (source line 393): the lowercased
text layer must contain both "patient data" and "single measurement". -/
def header_recognized (textLayer : String) : Bool :=
  let kw := textLayer.data.map lowerChar
  containsSubAux ("patient data").data kw &&
    containsSubAux ("single measurement").data kw

def valueOfNumOpt : Option ℚ → Value
  | none => Value.null
  | some q => Value.num q

def valueOfStrOpt : Option String → Value
  | none => Value.null
  | some s => Value.str s

/-- The row `extract_pdf_data` starts from (source lines 387-388): every
output column None, then the source file name. -/
def initial_row (fileName : String) : Row :=
  setKey (OUTPUT_FIELD_ORDER.map (fun f => (f, Value.null))) "Source File"
    (Value.str fileName)

/-- The row after the metadata and measurement updates (source lines 412-413).
`metaParse` abstracts `parse_patient_metadata`, the regex-based header parser,
whose result is an association list of header fields (the source function
always returns the five `PATIENT_METADATA_FIELDS` keys). -/
def row_after_parsers (metaParse : String → List (String × Option String))
    (doc : PdfInput) : Row :=
  let row1 := initial_row doc.fileName
  let row2 := updateRow row1
    ((metaParse (collapse_whitespace doc.textLayer)).map (fun p => (p.1, valueOfStrOpt p.2)))
  updateRow row2
    ((parse_measurements_from_seca_ocr doc.ocrText).map (fun p => (p.1, valueOfNumOpt p.2)))

/-- The derived-field step (source lines 415-420): when Height is present and
non-zero, set "Body Mass Index (kg/m^2)" to weight / height^2 if Weight is
present and to None otherwise; when Height is zero or missing, leave the row
unchanged (the field stays as it was, and no division is performed). -/
def row_after_bmi (metaParse : String → List (String × Option String))
    (doc : PdfInput) : Row :=
  let row := row_after_parsers metaParse doc
  match lookupNum row "Height (m)" with
  | none => row
  | some height =>
    if height = 0 then row
    else
      setKey row "Body Mass Index (kg/m^2)"
        (match lookupNum row "Weight (kg)" with
         | none => Value.null
         | some weight => Value.num (weight / height ^ 2))

/-- Embedding of `extract_pdf_data` (source lines 385-424): start from the
all-None row, check the header keywords (early Fail row when absent), merge
metadata and measurements, compute the derived field, then merge the quality
verdict computed over the assembled row. -/
def extract_pdf_data (atanDeg : ℚ → ℚ)
    (metaParse : String → List (String × Option String)) (doc : PdfInput) : Row :=
  if header_recognized doc.textLayer then
    let row := row_after_bmi metaParse doc
    updateRow row (evaluate_data_quality atanDeg (fun k => lookupNum row k))
  else
    updateRow (initial_row doc.fileName)
      [("Data Quality", Value.str "Fail"),
       ("Data Quality Fails", Value.str "Not recognized as a SECA data export")]

/-! ### OCR crop-box scaling (source lines 36-54) -/

def BASE_PAGE_WIDTH : Nat := 652
def BASE_PAGE_HEIGHT : Nat := 922

def RAW_OCR_BOX : Nat × Nat × Nat × Nat := (440, 239, 568, 875)

/-- Embedding of `get_scaled_ocr_box`: scale `RAW_OCR_BOX` from the 652x922
coordinate system to the actual rendered size.  Python's float arithmetic is
idealized as exact rational arithmetic, and `int(...)` on these non-negative
quantities is the floor. -/
def get_scaled_ocr_box (image_size : Nat × Nat) : Nat × Nat × Nat × Nat :=
  let sx : ℚ := (image_size.1 : ℚ) / (BASE_PAGE_WIDTH : ℚ)
  let sy : ℚ := (image_size.2 : ℚ) / (BASE_PAGE_HEIGHT : ℚ)
  (⌊(RAW_OCR_BOX.1 : ℚ) * sx⌋₊,
   ⌊(RAW_OCR_BOX.2.1 : ℚ) * sy⌋₊,
   ⌊(RAW_OCR_BOX.2.2.1 : ℚ) * sx⌋₊,
   ⌊(RAW_OCR_BOX.2.2.2 : ℚ) * sy⌋₊)

/-! ### Batch orchestrator (source lines 454-481)

`main` loops over the selected files; `extract_pdf_data` may raise at the
I/O level (for instance when the PDF cannot be opened), which the embedding
represents by letting per-document processing return `Except`: an error
carries the message of the raised exception.  On the first error `main`
shows the offending file name with the error and returns without writing
anything; only when every document produced a row is the spreadsheet
written. -/

inductive BatchOutcome where
  | aborted (fileName : String) (errMsg : String) : BatchOutcome
  | written (rows : List Row) : BatchOutcome
deriving DecidableEq

def run_batch (process : String → Except String Row) : List String → Except (String × String) (List Row)
  | [] => Except.ok []
  | pdf :: rest =>
    match process pdf with
    | Except.error e => Except.error (pdf, e)
    | Except.ok row =>
      match run_batch process rest with
      | Except.error pe => Except.error pe
      | Except.ok rows => Except.ok (row :: rows)

/-- The user-visible outcome of `main` (source lines 465-481): either the
abort dialog naming the offending file and the error, with no output file
written, or the success dialog after writing one row per document. -/
def main_outcome (process : String → Except String Row) (docs : List String) : BatchOutcome :=
  match run_batch process docs with
  | Except.error pe => BatchOutcome.aborted pe.1 pe.2
  | Except.ok rows => BatchOutcome.written rows

end SECA

namespace SECA

/-! ### Lemmas about the positional assignment -/

theorem assignPositional_map_fst (values : List ℚ) :
    ∀ (names : List String) (i : Nat),
      (assignPositional values names i).map Prod.fst = names
  | [], _ => rfl
  | name :: rest, i => by
    simp [assignPositional, assignPositional_map_fst values rest (i + 1)]

theorem assignPositional_getElem? (values : List ℚ) :
    ∀ (names : List String) (i j : Nat),
      (assignPositional values names i)[j]? =
        names[j]?.map (fun n => (n, values[i + j]?))
  | [], _, _ => by simp [assignPositional]
  | name :: rest, i, 0 => by simp [assignPositional]
  | name :: rest, i, j + 1 => by
    have ih := assignPositional_getElem? values rest (i + 1) j
    simp only [assignPositional, List.getElem?_cons_succ, ih]
    have harith : i + 1 + j = i + (j + 1) := by omega
    rw [harith]

/-- C1: for every OCR text input to the positional measurement parser, the
result keeps every schema field as a key in schema order; the field at schema
position j is assigned the j-th numeral token's value (reading order) whenever
j is below the token count K, and is null whenever K ≤ j; positions at or
beyond the schema length do not exist in the result, so extra tokens are
ignored and no value wraps around to an earlier field.  The parser is a total
function of the text, so it never raises. -/
theorem positional_parser_spec (ocr_text : String) :
    ((parse_measurements_from_seca_ocr ocr_text).map Prod.fst = MEASUREMENT_FIELD_NAMES)
    ∧ (∀ j : Nat, (parse_measurements_from_seca_ocr ocr_text)[j]? =
        MEASUREMENT_FIELD_NAMES[j]?.map
          (fun n => (n, ((findNumbers ocr_text.data).map ratOfToken)[j]?)))
    ∧ (∀ j : Nat, j < MEASUREMENT_FIELD_NAMES.length →
        ((findNumbers ocr_text.data).map ratOfToken).length ≤ j →
        ((parse_measurements_from_seca_ocr ocr_text)[j]?).map Prod.snd = some none) := by
  refine ⟨assignPositional_map_fst _ _ _, fun j => ?_, fun j hj hK => ?_⟩
  · have h := assignPositional_getElem? ((findNumbers ocr_text.data).map ratOfToken)
      MEASUREMENT_FIELD_NAMES 0 j
    simpa [parse_measurements_from_seca_ocr] using h
  · have h := assignPositional_getElem? ((findNumbers ocr_text.data).map ratOfToken)
      MEASUREMENT_FIELD_NAMES 0 j
    simp only [Nat.zero_add] at h
    rw [List.getElem?_eq_getElem hj, List.getElem?_eq_none hK] at h
    simp [parse_measurements_from_seca_ocr] at h ⊢
    simp [h]

/-- Witness for C1 at the concrete text "7 8" (two tokens) and schema
position 5: the sixth schema field is null. -/
theorem positional_parser_spec_witness :
    ((parse_measurements_from_seca_ocr "7 8")[5]?).map Prod.snd = some none := by
  have h2 : ((findNumbers ("7 8").data).map ratOfToken).length ≤ 5 := by
    simp +decide [findNumbers, findNumbersAux, takeDigits]
  exact (positional_parser_spec "7 8").2.2 5 (by decide) h2

/-! ### Lemmas about the failure accumulator -/

theorem mkFailures_eq_nil_iff (l : List (Bool × String)) :
    mkFailures l = [] ↔ ∀ p ∈ l, p.1 = false := by
  induction l with
  | nil => simp [mkFailures]
  | cons p rest ih => cases hp : p.1 <;> simp [mkFailures, hp, ih]

theorem mkFailures_sublist (l : List (Bool × String)) :
    List.Sublist (mkFailures l) (l.map Prod.snd) := by
  induction l with
  | nil => simp [mkFailures]
  | cons p rest ih =>
    cases hp : p.1
    · simpa [mkFailures, hp] using ih.cons p.2
    · simpa [mkFailures, hp] using ih.cons₂ p.2

theorem mem_mkFailures_of (l : List (Bool × String)) (p : Bool × String)
    (hp : p ∈ l) (ht : p.1 = true) : p.2 ∈ mkFailures l := by
  induction l with
  | nil => cases hp
  | cons q rest ih =>
    rcases List.mem_cons.mp hp with h | h
    · subst h
      simp [mkFailures, ht]
    · cases hq : q.1 <;> simp [mkFailures, hq, ih h]

theorem numbers_present_eq_false {values : String → Option ℚ} {fields : List String}
    {f : String} (hf : f ∈ fields) (hv : values f = none) :
    numbers_present values fields = false := by
  simp only [numbers_present]
  rw [List.all_eq_false]
  exact ⟨f, hf, by simp [hv]⟩

/-- C2: the verdict's status is Pass if and only if the failing-rule list is
empty (so any single failure forces Fail); the failing identifiers form a
sublist of the identifiers "1".."10" in rule evaluation order, hence appear
in that order without duplicates; and every rule block whose failure condition
holds has its identifier recorded in the list, not just the first one. -/
theorem quality_verdict_spec (atanDeg : ℚ → ℚ) (values : String → Option ℚ) :
    (lookupVal "Data Quality" (evaluate_data_quality atanDeg values) =
        some (Value.str "Pass") ↔ quality_failures atanDeg values = [])
    ∧ (lookupVal "Data Quality" (evaluate_data_quality atanDeg values) =
        some (Value.str "Fail") ↔ quality_failures atanDeg values ≠ [])
    ∧ List.Sublist (quality_failures atanDeg values) RULE_IDS
    ∧ (quality_failures atanDeg values).Nodup
    ∧ ((rule_table atanDeg values).map Prod.snd = RULE_IDS)
    ∧ (∀ p ∈ rule_table atanDeg values, p.1 = true →
        p.2 ∈ quality_failures atanDeg values) := by
  have hids : (rule_table atanDeg values).map Prod.snd = RULE_IDS := rfl
  have hsub : List.Sublist (quality_failures atanDeg values) RULE_IDS := by
    have h := mkFailures_sublist (rule_table atanDeg values)
    rwa [hids] at h
  have hnd : RULE_IDS.Nodup := by decide
  refine ⟨?_, ?_, hsub, hnd.sublist hsub, hids,
    fun p hp ht => mem_mkFailures_of _ p hp ht⟩
  · constructor
    · intro h
      by_cases hne : quality_failures atanDeg values = []
      · exact hne
      · exfalso
        simp [evaluate_data_quality, lookupVal, hne] at h
    · intro h
      simp [evaluate_data_quality, lookupVal, h]
  · constructor
    · intro h he
      simp [evaluate_data_quality, lookupVal, he] at h
    · intro h
      simp [evaluate_data_quality, lookupVal, h]

/-- Witness for C2 with every field null: rule 2's block fails, so "2" is in
the failing-rule list. -/
theorem quality_verdict_spec_witness :
    "2" ∈ quality_failures (fun _ => 0) (fun _ => none) := by
  have h := (quality_verdict_spec (fun _ => 0) (fun _ => none)).2.2.2.2.2
  exact h (rule2_fails (fun _ => none), "2") (by simp [rule_table]) (by decide)

/-- C3: for every measurement set and every rule 1-10, if any field the rule
requires is null, the rule's identifier is recorded in the failing-rule list
(the rule is treated as failing, not skipped); the evaluator is a total
function, so no exception is raised. -/
theorem null_required_field_fails (atanDeg : ℚ → ℚ) (values : String → Option ℚ)
    (id : String) (fields : List String) (f : String)
    (hrule : (id, fields) ∈ RULES_REQUIRED) (hf : f ∈ fields) (hv : values f = none) :
    id ∈ quality_failures atanDeg values := by
  simp only [RULES_REQUIRED, List.mem_cons, Prod.mk.injEq, List.not_mem_nil,
    or_false] at hrule
  rcases hrule with h1 | h2 | h3 | h4 | h5 | h6 | h7 | h8 | h9 | h10
  · obtain ⟨rfl, rfl⟩ := h1
    exact mem_mkFailures_of _ (rule1_fails values, "1") (by simp [rule_table])
      (by simp [rule1_fails, numbers_present_eq_false hf hv])
  · obtain ⟨rfl, rfl⟩ := h2
    exact mem_mkFailures_of _ (rule2_fails values, "2") (by simp [rule_table])
      (by simp [rule2_fails, numbers_present_eq_false hf hv])
  · obtain ⟨rfl, rfl⟩ := h3
    exact mem_mkFailures_of _ (rule3_fails values, "3") (by simp [rule_table])
      (by simp [rule3_fails, numbers_present_eq_false hf hv])
  · obtain ⟨rfl, rfl⟩ := h4
    exact mem_mkFailures_of _ (rule4_fails values, "4") (by simp [rule_table])
      (by simp [rule4_fails, numbers_present_eq_false hf hv])
  · obtain ⟨rfl, rfl⟩ := h5
    exact mem_mkFailures_of _ (rule5_fails values, "5") (by simp [rule_table])
      (by simp [rule5_fails, numbers_present_eq_false hf hv])
  · obtain ⟨rfl, rfl⟩ := h6
    exact mem_mkFailures_of _ (rule6_fails values, "6") (by simp [rule_table])
      (by simp [rule6_fails, numbers_present_eq_false hf hv])
  · obtain ⟨rfl, rfl⟩ := h7
    exact mem_mkFailures_of _ (rule7_fails values, "7") (by simp [rule_table])
      (by simp [rule7_fails, numbers_present_eq_false hf hv])
  · obtain ⟨rfl, rfl⟩ := h8
    exact mem_mkFailures_of _ (rule8_fails values, "8") (by simp [rule_table])
      (by simp [rule8_fails, numbers_present_eq_false hf hv])
  · obtain ⟨rfl, rfl⟩ := h9
    exact mem_mkFailures_of _ (rule9_fails atanDeg values, "9") (by simp [rule_table])
      (by simp [rule9_fails, numbers_present_eq_false hf hv])
  · obtain ⟨rfl, rfl⟩ := h10
    have hfeq : f = "Phase Angle Percentile" := by simpa using hf
    subst hfeq
    exact mem_mkFailures_of _ (rule10_fails values, "10") (by simp [rule_table])
      (by simp [rule10_fails, hv])

/-- Witness for C3: with every field null, rule 1 (which requires the Weight
field) records its identifier. -/
theorem null_required_field_fails_witness :
    "1" ∈ quality_failures (fun _ => 0) (fun _ => none) :=
  null_required_field_fails (fun _ => 0) (fun _ => none) "1"
    ["Fat Mass (kg)", "Fat-Free Mass (kg)", "Weight (kg)"] "Weight (kg)"
    (by decide) (by decide) rfl

/-- C4 counterexample: the positional parser's tokenization
(`re.findall(r"\d+(?:\.\d+)?", ...)`) neither rewrites comma decimal marks
nor accepts a minus sign: the input "12,5" yields the two values 12 and 5,
not the single value 12.5, and "-12.5" yields 12.5, not -12.5. -/
theorem comma_negative_tokenization_cex :
    ((findNumbers ("12,5").data).map ratOfToken ≠ [(25 : ℚ)/2])
    ∧ ((findNumbers ("12,5").data).map ratOfToken = [(12 : ℚ), 5])
    ∧ ((findNumbers ("-12.5").data).map ratOfToken = [(25 : ℚ)/2])
    ∧ ((findNumbers ("-12.5").data).map ratOfToken ≠ [-((25 : ℚ)/2)]) := by
  refine ⟨?_, ?_, ?_, ?_⟩ <;>
    simp +decide [findNumbers, findNumbersAux, takeDigits, ratOfToken, natOfDigits] <;>
    norm_num

/-- C4 amended: the helper `normalize_number` does replace comma decimal
separators with periods and does permit negative numbers, so "12,5" and
"12.5" both normalize to 12.5 and "-12.5" to -12.5; but the positional
measurement parser does not use it: its own tokenization splits "12,5" into
the two values 12 and 5 and parses "-12.5" as 12.5. -/
theorem normalize_number_amended :
    (normalize_number "12,5" = (25 : ℚ)/2)
    ∧ (normalize_number "12.5" = (25 : ℚ)/2)
    ∧ (normalize_number "-12.5" = -((25 : ℚ)/2))
    ∧ ((findNumbers ("12,5").data).map ratOfToken = [(12 : ℚ), 5])
    ∧ ((findNumbers ("-12.5").data).map ratOfToken = [(25 : ℚ)/2]) := by
  refine ⟨?_, ?_, ?_, ?_, ?_⟩ <;>
    simp +decide [normalize_number, findNumbers, findNumbersAux, takeDigits,
      ratOfToken, natOfDigits] <;>
    norm_num

/-! ### Lemmas about rows -/

theorem lookupVal_setKey_self (k : String) (v : Value) :
    ∀ row : Row, lookupVal k (setKey row k v) = some v
  | [] => by simp [setKey, lookupVal]
  | p :: rest => by
    by_cases hp : p.1 = k
    · simp [setKey, hp, lookupVal]
    · simp [setKey, hp, lookupVal, lookupVal_setKey_self k v rest]

theorem lookupVal_setKey_ne {k k' : String} (v : Value) (hne : k' ≠ k) :
    ∀ row : Row, lookupVal k' (setKey row k v) = lookupVal k' row
  | [] => by
    have hkk : k ≠ k' := Ne.symm hne
    simp [setKey, lookupVal, hkk]
  | p :: rest => by
    by_cases hp : p.1 = k
    · have hp' : p.1 ≠ k' := hp ▸ Ne.symm hne
      simp [setKey, hp, lookupVal, Ne.symm hne, hp']
    · simp [setKey, hp, lookupVal, lookupVal_setKey_ne v hne rest]

theorem lookupVal_setKey_isSome (k k' : String) (v : Value) (row : Row)
    (h : (lookupVal k' row).isSome = true) :
    (lookupVal k' (setKey row k v)).isSome = true := by
  by_cases hk : k' = k
  · subst hk
    simp [lookupVal_setKey_self]
  · rwa [lookupVal_setKey_ne v hk]

theorem setKey_map_fst_of_mem (k : String) (v : Value) :
    ∀ row : Row, k ∈ row.map Prod.fst →
      (setKey row k v).map Prod.fst = row.map Prod.fst
  | [], hmem => by simp at hmem
  | p :: rest, hmem => by
    by_cases hp : p.1 = k
    · simp [setKey, hp]
    · have hrest : k ∈ rest.map Prod.fst := by
        rcases List.mem_cons.mp ((List.map_cons Prod.fst p rest) ▸ hmem) with h | h
        · exact absurd h.symm hp
        · exact h
      simp [setKey, hp, setKey_map_fst_of_mem k v rest hrest]

theorem updateRow_nil (row : Row) : updateRow row [] = row := rfl

theorem updateRow_cons (row : Row) (q : String × Value) (rest : Row) :
    updateRow row (q :: rest) = updateRow (setKey row q.1 q.2) rest := rfl

theorem lookupVal_updateRow_not_mem {k : String} :
    ∀ (upd : Row) (row : Row), k ∉ upd.map Prod.fst →
      lookupVal k (updateRow row upd) = lookupVal k row
  | [], row, _ => rfl
  | q :: rest, row, h => by
    have h1 : k ≠ q.1 := by
      intro he
      exact h (by simp [he])
    have h2 : k ∉ rest.map Prod.fst := by
      intro he
      exact h (by simp [he])
    rw [updateRow_cons, lookupVal_updateRow_not_mem rest _ h2,
      lookupVal_setKey_ne q.2 h1]

theorem lookupVal_updateRow_isSome (k : String) :
    ∀ (upd row : Row), (lookupVal k row).isSome = true →
      (lookupVal k (updateRow row upd)).isSome = true
  | [], _, h => h
  | q :: rest, row, h =>
    lookupVal_updateRow_isSome k rest _ (lookupVal_setKey_isSome q.1 k q.2 row h)

theorem updateRow_map_fst_of_subset :
    ∀ (upd row : Row), (∀ q ∈ upd, q.1 ∈ row.map Prod.fst) →
      (updateRow row upd).map Prod.fst = row.map Prod.fst
  | [], row, _ => rfl
  | q :: rest, row, h => by
    have h1 : q.1 ∈ row.map Prod.fst := h q (List.mem_cons_self q rest)
    have h2 : (setKey row q.1 q.2).map Prod.fst = row.map Prod.fst :=
      setKey_map_fst_of_mem q.1 q.2 row h1
    rw [updateRow_cons, updateRow_map_fst_of_subset rest _
      (fun r hr => by rw [h2]; exact h r (List.mem_cons_of_mem q hr)), h2]

theorem lookupVal_const_map (k : String) (c : Value) :
    ∀ l : List String,
      lookupVal k (l.map (fun f => (f, c))) = if k ∈ l then some c else none
  | [] => by simp [lookupVal]
  | f :: rest => by
    by_cases hf : f = k
    · simp [lookupVal, hf]
    · simp [lookupVal, hf, lookupVal_const_map k c rest, Ne.symm hf]

theorem map_fst_pair_map (c : Value) (l : List String) :
    (l.map (fun f => (f, c))).map Prod.fst = l := by
  induction l with
  | nil => rfl
  | cons f rest ih => simp [ih]

theorem initial_row_map_fst (name : String) :
    (initial_row name).map Prod.fst = OUTPUT_FIELD_ORDER := by
  unfold initial_row
  rw [setKey_map_fst_of_mem]
  · exact map_fst_pair_map _ _
  · rw [map_fst_pair_map]
    decide

theorem lookupVal_initial_row (name f : String) (hf : f ∈ OUTPUT_FIELD_ORDER)
    (hne : f ≠ "Source File") :
    lookupVal f (initial_row name) = some Value.null := by
  unfold initial_row
  rw [lookupVal_setKey_ne _ hne, lookupVal_const_map, if_pos hf]

theorem lookupVal_initial_row_isSome (name f : String) (hf : f ∈ OUTPUT_FIELD_ORDER) :
    (lookupVal f (initial_row name)).isSome = true := by
  by_cases hs : f = "Source File"
  · subst hs
    unfold initial_row
    simp [lookupVal_setKey_self]
  · rw [lookupVal_initial_row name f hf hs]
    rfl

theorem updateRow_pair (row : Row) (a : String) (v : Value) (rest : Row) :
    updateRow row ((a, v) :: rest) = updateRow (setKey row a v) rest := rfl

theorem map_fst_remap {β γ : Type} (g : β → γ) (l : List (String × β)) :
    (l.map (fun p => (p.1, g p.2))).map Prod.fst = l.map Prod.fst := by
  induction l with
  | nil => rfl
  | cons p rest ih => simp [ih]

theorem parse_meas_map_fst (ocr_text : String) :
    (parse_measurements_from_seca_ocr ocr_text).map Prod.fst = MEASUREMENT_FIELD_NAMES :=
  assignPositional_map_fst _ _ _

theorem lookupVal_row_after_parsers_isSome
    (metaParse : String → List (String × Option String)) (doc : PdfInput) (f : String)
    (h : (lookupVal f (initial_row doc.fileName)).isSome = true) :
    (lookupVal f (row_after_parsers metaParse doc)).isSome = true := by
  simp only [row_after_parsers]
  exact lookupVal_updateRow_isSome f _ _ (lookupVal_updateRow_isSome f _ _ h)

theorem lookupVal_row_after_bmi_isSome
    (metaParse : String → List (String × Option String)) (doc : PdfInput) (f : String)
    (h : (lookupVal f (row_after_parsers metaParse doc)).isSome = true) :
    (lookupVal f (row_after_bmi metaParse doc)).isSome = true := by
  simp only [row_after_bmi]
  split
  · exact h
  · split
    · exact h
    · exact lookupVal_setKey_isSome _ _ _ _ h

theorem lookupVal_bmi_row_after_parsers
    (metaParse : String → List (String × Option String)) (doc : PdfInput)
    (hmp : ∀ p ∈ metaParse (collapse_whitespace doc.textLayer),
      p.1 ∈ PATIENT_METADATA_FIELDS) :
    lookupVal "Body Mass Index (kg/m^2)" (row_after_parsers metaParse doc) =
      some Value.null := by
  have hmeas : "Body Mass Index (kg/m^2)" ∉
      (((parse_measurements_from_seca_ocr doc.ocrText).map
        (fun p => (p.1, valueOfNumOpt p.2))).map Prod.fst) := by
    rw [map_fst_remap, parse_meas_map_fst]
    decide
  have hmeta : "Body Mass Index (kg/m^2)" ∉
      (((metaParse (collapse_whitespace doc.textLayer)).map
        (fun p => (p.1, valueOfStrOpt p.2))).map Prod.fst) := by
    rw [map_fst_remap]
    intro hmem
    rcases List.mem_map.mp hmem with ⟨p, hp, hpk⟩
    have hmem2 := hmp p hp
    rw [hpk] at hmem2
    exact absurd hmem2 (by decide)
  simp only [row_after_parsers]
  rw [lookupVal_updateRow_not_mem _ _ hmeas, lookupVal_updateRow_not_mem _ _ hmeta,
    lookupVal_initial_row _ _ (by decide) (by decide)]

/-- C5: for every document (whatever its text layer and OCR text, including
empty ones), every field name of the fixed measurement schema appears as a
key of the measurement set returned by the positional parser (in schema
order), and appears as a key of the assembled output row built by
`extract_pdf_data` — the schema completeness invariant. -/
theorem schema_completeness (atanDeg : ℚ → ℚ)
    (metaParse : String → List (String × Option String)) (doc : PdfInput)
    (ocr_text : String) :
    ((parse_measurements_from_seca_ocr ocr_text).map Prod.fst = MEASUREMENT_FIELD_NAMES)
    ∧ (∀ f ∈ MEASUREMENT_FIELD_NAMES,
        (lookupVal f (extract_pdf_data atanDeg metaParse doc)).isSome = true) := by
  refine ⟨parse_meas_map_fst ocr_text, fun f hf => ?_⟩
  have hO : f ∈ OUTPUT_FIELD_ORDER := by
    have hsub : ∀ g ∈ MEASUREMENT_FIELD_NAMES, g ∈ OUTPUT_FIELD_ORDER := by decide
    exact hsub f hf
  have hinit := lookupVal_initial_row_isSome doc.fileName f hO
  simp only [extract_pdf_data]
  split
  · exact lookupVal_updateRow_isSome f _ _
      (lookupVal_row_after_bmi_isSome metaParse doc f
        (lookupVal_row_after_parsers_isSome metaParse doc f hinit))
  · exact lookupVal_updateRow_isSome f _ _ hinit

/-- Witness for C5 on a document with empty text layer and OCR text: the
Weight field is still a key of the output row. -/
theorem schema_completeness_witness :
    (lookupVal "Weight (kg)" (extract_pdf_data (fun _ => 0) (fun _ => [])
      ⟨"a.pdf", "", ""⟩)).isSome = true :=
  (schema_completeness (fun _ => 0) (fun _ => []) ⟨"a.pdf", "", ""⟩ "").2
    "Weight (kg)" (by decide)

/-- C6: the derived Body Mass Index field equals weight / height^2 exactly
when both Weight and Height are present and Height is non-zero; when Height
is zero or missing the field stays null (and the guard prevents the division
from being reached); when Height is present and non-zero but Weight is
missing, the field is assigned null.  The hypothesis records what the source
guarantees about the abstracted metadata parser: it only writes the five
patient metadata keys. -/
theorem bmi_derivation_spec (metaParse : String → List (String × Option String))
    (doc : PdfInput)
    (hmp : ∀ p ∈ metaParse (collapse_whitespace doc.textLayer),
      p.1 ∈ PATIENT_METADATA_FIELDS) :
    (∀ hq w, lookupNum (row_after_parsers metaParse doc) "Height (m)" = some hq →
        hq ≠ 0 →
        lookupNum (row_after_parsers metaParse doc) "Weight (kg)" = some w →
        lookupVal "Body Mass Index (kg/m^2)" (row_after_bmi metaParse doc) =
          some (Value.num (w / hq ^ 2)))
    ∧ (lookupNum (row_after_parsers metaParse doc) "Height (m)" = none ∨
        lookupNum (row_after_parsers metaParse doc) "Height (m)" = some 0 →
        lookupVal "Body Mass Index (kg/m^2)" (row_after_bmi metaParse doc) =
          some Value.null)
    ∧ (∀ hq, lookupNum (row_after_parsers metaParse doc) "Height (m)" = some hq →
        hq ≠ 0 →
        lookupNum (row_after_parsers metaParse doc) "Weight (kg)" = none →
        lookupVal "Body Mass Index (kg/m^2)" (row_after_bmi metaParse doc) =
          some Value.null) := by
  refine ⟨fun hq w hh hnz hw => ?_, fun hcase => ?_, fun hq hh hnz hw => ?_⟩
  · simp only [row_after_bmi]
    rw [hh, hw]
    simp [hnz, lookupVal_setKey_self]
  · rcases hcase with hh | hh
    · simp only [row_after_bmi]
      rw [hh]
      exact lookupVal_bmi_row_after_parsers metaParse doc hmp
    · simp only [row_after_bmi]
      rw [hh]
      simp only [if_pos rfl]
      exact lookupVal_bmi_row_after_parsers metaParse doc hmp
  · simp only [row_after_bmi]
    rw [hh, hw]
    simp [hnz, lookupVal_setKey_self]

/-- Witness for C6 on a document with empty texts (Height missing): the
derived field is null. -/
theorem bmi_derivation_spec_witness :
    lookupVal "Body Mass Index (kg/m^2)"
      (row_after_bmi (fun _ => []) ⟨"a.pdf", "", ""⟩) = some Value.null := by
  have h := (bmi_derivation_spec (fun _ => []) ⟨"a.pdf", "", ""⟩ (by simp)).2.1
  exact h (Or.inl (by decide))

/-- C7: for every document whose text layer lacks the recognition keywords,
`extract_pdf_data` still returns a complete output row (every output column
is a key, in the contracted order), with quality status Fail and the
sentinel failure reason; it is a total function, so nothing is raised and
the batch is not aborted. -/
theorem unrecognized_header_spec (atanDeg : ℚ → ℚ)
    (metaParse : String → List (String × Option String)) (doc : PdfInput)
    (hrec : header_recognized doc.textLayer = false) :
    ((extract_pdf_data atanDeg metaParse doc).map Prod.fst = OUTPUT_FIELD_ORDER)
    ∧ (lookupVal "Data Quality" (extract_pdf_data atanDeg metaParse doc) =
        some (Value.str "Fail"))
    ∧ (lookupVal "Data Quality Fails" (extract_pdf_data atanDeg metaParse doc) =
        some (Value.str "Not recognized as a SECA data export")) := by
  simp only [extract_pdf_data, hrec, Bool.false_eq_true, if_false]
  rw [updateRow_pair, updateRow_pair, updateRow_nil]
  have hm1 : "Data Quality" ∈ (initial_row doc.fileName).map Prod.fst := by
    rw [initial_row_map_fst]
    decide
  have h1 := setKey_map_fst_of_mem "Data Quality" (Value.str "Fail") _ hm1
  have hm2 : "Data Quality Fails" ∈
      (setKey (initial_row doc.fileName) "Data Quality" (Value.str "Fail")).map Prod.fst := by
    rw [h1, initial_row_map_fst]
    decide
  have h2 := setKey_map_fst_of_mem "Data Quality Fails"
    (Value.str "Not recognized as a SECA data export") _ hm2
  refine ⟨by rw [h2, h1, initial_row_map_fst], ?_, ?_⟩
  · rw [lookupVal_setKey_ne _ (by decide), lookupVal_setKey_self]
  · rw [lookupVal_setKey_self]

/-- Witness for C7 on a document with empty text layer: the row carries the
Fail verdict and the sentinel reason. -/
theorem unrecognized_header_spec_witness :
    lookupVal "Data Quality" (extract_pdf_data (fun _ => 0) (fun _ => [])
      ⟨"a.pdf", "", ""⟩) = some (Value.str "Fail") :=
  (unrecognized_header_spec (fun _ => 0) (fun _ => []) ⟨"a.pdf", "", ""⟩
    (by decide)).2.1

/-- C10: the data quality evaluator returns a mapping with exactly the two
keys "Data Quality" and "Data Quality Fails" (it is a pure function of its
input, which it does not mutate), so merging its result into any row — in
particular the assembled output row inside `extract_pdf_data` — changes only
those two columns and leaves every other (metadata or measurement) field
unchanged. -/
theorem quality_merge_frame (atanDeg : ℚ → ℚ) (values : String → Option ℚ)
    (row : Row) (k : String)
    (metaParse : String → List (String × Option String)) (doc : PdfInput) :
    ((evaluate_data_quality atanDeg values).map Prod.fst =
        ["Data Quality", "Data Quality Fails"])
    ∧ (k ≠ "Data Quality" → k ≠ "Data Quality Fails" →
        lookupVal k (updateRow row (evaluate_data_quality atanDeg values)) =
          lookupVal k row)
    ∧ (header_recognized doc.textLayer = true →
        k ≠ "Data Quality" → k ≠ "Data Quality Fails" →
        lookupVal k (extract_pdf_data atanDeg metaParse doc) =
          lookupVal k (row_after_bmi metaParse doc)) := by
  have hframe : ∀ (vs : String → Option ℚ) (r : Row), k ≠ "Data Quality" →
      k ≠ "Data Quality Fails" →
      lookupVal k (updateRow r (evaluate_data_quality atanDeg vs)) = lookupVal k r := by
    intro vs r h1 h2
    apply lookupVal_updateRow_not_mem
    have hkeys : (evaluate_data_quality atanDeg vs).map Prod.fst =
        ["Data Quality", "Data Quality Fails"] := rfl
    rw [hkeys]
    simp [h1, h2]
  refine ⟨rfl, hframe values row, fun hrec h1 h2 => ?_⟩
  simp only [extract_pdf_data, hrec, if_true]
  exact hframe _ _ h1 h2

/-- Witness for C10: merging the verdict into a one-entry row leaves its
entry unchanged, and on a recognized document the final merge step of
`extract_pdf_data` leaves the Weight column of the assembled row unchanged. -/
theorem quality_merge_frame_witness :
    (lookupVal "X" (updateRow [("X", Value.num 1)]
        (evaluate_data_quality (fun _ => 0) (fun _ => none))) =
      lookupVal "X" [("X", Value.num 1)])
    ∧ (lookupVal "Weight (kg)" (extract_pdf_data (fun _ => 0) (fun _ => [])
        ⟨"a.pdf", "Patient Data Single Measurement", ""⟩) =
      lookupVal "Weight (kg)" (row_after_bmi (fun _ => [])
        ⟨"a.pdf", "Patient Data Single Measurement", ""⟩)) := by
  have h1 := quality_merge_frame (fun _ => 0) (fun _ => none) [("X", Value.num 1)] "X"
    (fun _ => []) ⟨"a.pdf", "Patient Data Single Measurement", ""⟩
  have h2 := quality_merge_frame (fun _ => 0) (fun _ => none) [("X", Value.num 1)]
    "Weight (kg)" (fun _ => []) ⟨"a.pdf", "Patient Data Single Measurement", ""⟩
  exact ⟨h1.2.1 (by decide) (by decide), h2.2.2 (by decide) (by decide) (by decide)⟩

/-! ### Crop-box scaling -/

theorem floor_nat_scale (a n b : Nat) :
    ⌊(a : ℚ) * ((n : ℚ) / (b : ℚ))⌋₊ = a * n / b := by
  rw [← mul_div_assoc, ← Nat.cast_mul, Nat.floor_div_nat, Nat.floor_natCast]

/-- C9: for every rendered page size (w, h), each coordinate of the scaled
OCR crop box equals the raw reference coordinate multiplied by the ratio of
the actual dimension to the base dimension (652 for x, 922 for y), computed
independently per axis and truncated to a whole pixel (the natural-number
division below is exactly that truncation). -/
theorem ocr_box_scaling (w h : Nat) :
    get_scaled_ocr_box (w, h) =
      (440 * w / 652, 239 * h / 922, 568 * w / 652, 875 * h / 922) := by
  dsimp only [get_scaled_ocr_box, RAW_OCR_BOX, BASE_PAGE_WIDTH, BASE_PAGE_HEIGHT]
  rw [floor_nat_scale 440 w 652, floor_nat_scale 239 h 922,
    floor_nat_scale 568 w 652, floor_nat_scale 875 h 922]

/-! ### Batch orchestration -/

theorem run_batch_first_error (process : String → Except String Row) :
    ∀ (pre : List String) (d e : String) (post : List String),
      (∀ d' ∈ pre, ∃ r, process d' = Except.ok r) → process d = Except.error e →
      run_batch process (pre ++ d :: post) = Except.error (d, e)
  | [], d, e, post, _, hd => by simp [run_batch, hd]
  | p :: pre, d, e, post, hpre, hd => by
    rcases hpre p (List.mem_cons_self p pre) with ⟨r, hr⟩
    have ih := run_batch_first_error process pre d e post
      (fun d' hd' => hpre d' (List.mem_cons_of_mem p hd')) hd
    simp [run_batch, hr, ih]

theorem run_batch_ok_all (process : String → Except String Row) :
    ∀ (docs : List String) (rows : List Row),
      run_batch process docs = Except.ok rows →
      rows.length = docs.length ∧ ∀ d ∈ docs, ∃ r, process d = Except.ok r
  | [], rows, h => by
    simp only [run_batch, Except.ok.injEq] at h
    subst h
    simp
  | d :: rest, rows, h => by
    simp only [run_batch] at h
    cases hp : process d with
    | error e => rw [hp] at h; cases h
    | ok r =>
      rw [hp] at h
      cases hr : run_batch process rest with
      | error pe => rw [hr] at h; cases h
      | ok rows2 =>
        rw [hr] at h
        cases h
        have ih := run_batch_ok_all process rest rows2 hr
        refine ⟨by simp [ih.1], fun d' hd' => ?_⟩
        rcases List.mem_cons.mp hd' with hd2 | hd2
        · exact ⟨r, hd2 ▸ hp⟩
        · exact ih.2 d' hd2

/-- C8: if processing some document raises (modelled by `process` returning
an error) while every earlier document succeeded, the orchestrator aborts
the whole batch with that document's file name and error message, processes
no later document, and writes no output (the `written` outcome, the only one
carrying rows for the spreadsheet, requires every document to have produced
a row — one row per document, none skipped). -/
theorem batch_abort_spec (process : String → Except String Row) :
    (∀ (docs : List String) (rows : List Row),
        main_outcome process docs = BatchOutcome.written rows →
        rows.length = docs.length ∧ ∀ d ∈ docs, ∃ r, process d = Except.ok r)
    ∧ (∀ (pre : List String) (d e : String) (post : List String),
        (∀ d' ∈ pre, ∃ r, process d' = Except.ok r) → process d = Except.error e →
        main_outcome process (pre ++ d :: post) = BatchOutcome.aborted d e) := by
  constructor
  · intro docs rows h
    unfold main_outcome at h
    cases hr : run_batch process docs with
    | error pe => rw [hr] at h; cases h
    | ok rows2 =>
      rw [hr] at h
      simp only [BatchOutcome.written.injEq] at h
      subst h
      exact run_batch_ok_all process docs rows2 hr
  · intro pre d e post hpre hd
    unfold main_outcome
    rw [run_batch_first_error process pre d e post hpre hd]

/-- Witness for C8: with a three-document batch whose second document fails,
the outcome is the abort naming that document and its error. -/
theorem batch_abort_spec_witness :
    main_outcome
      (fun d => if d = "bad.pdf" then Except.error "boom" else Except.ok [])
      ["good.pdf", "bad.pdf", "later.pdf"] = BatchOutcome.aborted "bad.pdf" "boom" := by
  have h := (batch_abort_spec
      (fun d => if d = "bad.pdf" then Except.error "boom" else Except.ok [])).2
    ["good.pdf"] "bad.pdf" "boom" ["later.pdf"]
    (fun d' hd' => by
      have hde : d' = "good.pdf" := by simpa using hd'
      subst hde
      exact ⟨[], by rfl⟩)
    (by rfl)
  exact h

end SECA
